import Mathlib

/-!
# pubsubwrapper: adapters over the publish/subscribe client library

A shallow embedding of `adapters.go`.

* Pointers to objects of the wrapped library are handles (`pubsub.Ptr`), the
  nil pointer being the handle without an address.
* The wrapped library is not part of the package: its methods are the fields
  of `pubsub.Library`, functions over a state `W` the library owns (the
  service, the iterators' positions, ...). Every adapter method takes the
  library as a parameter and threads `W` through the calls it makes, in
  program order.
* A Go interface value is `nil`, an adapter of this package, or a value of
  some other implementing type.
* A Go panic raised by the package's own code (failed type assertion, nil
  dereference) is an `Except.error`.
* The two unbounded `for` loops take a fuel argument; running out of fuel is
  `none`.
-/

namespace pubsubwrapper

/-- Go `error` values; the nil error is `none : Option GoError`. -/
inductive GoError where
  | Done
  | other (msg : String)
  deriving DecidableEq

/-- Run-time panics the package's own code can raise. -/
inductive GoPanic where
  | typeAssertion
  | nilDereference
  deriving DecidableEq

/-- A `context.Context`, identified by a number. -/
abbrev Context := Nat

namespace pubsub

/-- The kinds of library object the package holds pointers to. -/
inductive Kind where
  | Client
  | Topic
  | Subscription
  | Message
  | PublishResult
  | TopicIterator
  | SubscriptionIterator
  deriving DecidableEq

/-- A pointer to a library object of kind `k`; `addr = none` is the nil pointer. -/
structure Ptr (k : Kind) where
  addr : Option Nat
  deriving DecidableEq

abbrev ClientPtr := Ptr Kind.Client
abbrev TopicPtr := Ptr Kind.Topic
abbrev SubscriptionPtr := Ptr Kind.Subscription
abbrev MessagePtr := Ptr Kind.Message
abbrev PublishResultPtr := Ptr Kind.PublishResult
abbrev TopicIteratorPtr := Ptr Kind.TopicIterator
abbrev SubscriptionIteratorPtr := Ptr Kind.SubscriptionIterator

/-- The fields of `pubsub.Message` the package reads. `Data` is the byte
payload, `Attributes` the string map (as an association list), `PublishTime`
the time stamp. -/
structure Message where
  ID : String
  Data : List (Fin 256)
  Attributes : List (String × String)
  PublishTime : Int
  deriving DecidableEq

/-- The memory holding the `pubsub.Message` structs, by address. -/
abbrev Heap := Nat → Message

/-- A `pubsub.PushConfig` value; the package copies it and never looks inside. -/
structure PushConfig where
  val : String
  deriving DecidableEq

/-- The `pubsub.SubscriptionConfig` literal built by `toPS`. -/
structure SubscriptionConfig where
  Topic : TopicPtr
  PushConfig : PushConfig
  AckDeadline : Int
  RetainAckedMessages : Bool
  RetentionDuration : Int
  Labels : List (String × String)
  deriving DecidableEq

/-- The methods of the wrapped library that the package calls, as functions
over the library's own state `W`. `Subscription_Receive` gives what the
delivery loop does during one call: the (context, message) pairs it hands to
its callback, in order, and the error it finally returns. -/
structure Library (W : Type) where
  Client_CreateTopic : ClientPtr → Context → String → W → (TopicPtr × Option GoError) × W
  Client_Topic : ClientPtr → String → W → TopicPtr × W
  Client_CreateSubscription :
    ClientPtr → Context → String → SubscriptionConfig → W → (SubscriptionPtr × Option GoError) × W
  Client_Subscription : ClientPtr → String → W → SubscriptionPtr × W
  Client_Topics : ClientPtr → Context → W → TopicIteratorPtr × W
  Client_Subscriptions : ClientPtr → Context → W → SubscriptionIteratorPtr × W
  TopicIterator_Next : TopicIteratorPtr → W → (TopicPtr × Option GoError) × W
  SubscriptionIterator_Next : SubscriptionIteratorPtr → W → (SubscriptionPtr × Option GoError) × W
  Topic_String : TopicPtr → W → String × W
  Topic_Publish : TopicPtr → Context → MessagePtr → W → PublishResultPtr × W
  Topic_Delete : TopicPtr → Context → W → Option GoError × W
  Subscription_String : SubscriptionPtr → W → String × W
  Subscription_Exists : SubscriptionPtr → Context → W → (Bool × Option GoError) × W
  Subscription_Receive :
    SubscriptionPtr → Context → W → (List (Context × MessagePtr) × Option GoError) × W
  Subscription_Delete : SubscriptionPtr → Context → W → Option GoError × W
  PublishResult_Get : PublishResultPtr → Context → W → (String × Option GoError) × W

/-- The library's `(*Subscription).Receive(ctx, cb)`: the delivery loop hands
each delivered message to the callback `cb`, in order, then returns its
terminal error. -/
def Subscription_Receive_run {W : Type} (L : Library W) (s : SubscriptionPtr) (ctx : Context)
    (cb : Context → MessagePtr → W → W) (w : W) : Option GoError × W :=
  let r := L.Subscription_Receive s ctx w
  (r.1.2, r.1.1.foldl (fun acc d => cb d.1 d.2 acc) r.2)

/-- One recorded call of a library method, with its arguments. -/
inductive Call where
  | Client_CreateTopic (c : ClientPtr) (ctx : Context) (topicID : String)
  | Client_Topic (c : ClientPtr) (id : String)
  | Client_CreateSubscription (c : ClientPtr) (ctx : Context) (id : String)
      (cfg : SubscriptionConfig)
  | Client_Subscription (c : ClientPtr) (id : String)
  | Client_Topics (c : ClientPtr) (ctx : Context)
  | Client_Subscriptions (c : ClientPtr) (ctx : Context)
  | TopicIterator_Next (it : TopicIteratorPtr)
  | SubscriptionIterator_Next (it : SubscriptionIteratorPtr)
  | Topic_String (t : TopicPtr)
  | Topic_Publish (t : TopicPtr) (ctx : Context) (msg : MessagePtr)
  | Topic_Delete (t : TopicPtr) (ctx : Context)
  | Subscription_String (s : SubscriptionPtr)
  | Subscription_Exists (s : SubscriptionPtr) (ctx : Context)
  | Subscription_Receive (s : SubscriptionPtr) (ctx : Context)
  | Subscription_Delete (s : SubscriptionPtr) (ctx : Context)
  | PublishResult_Get (r : PublishResultPtr) (ctx : Context)
  deriving DecidableEq

/-- The library `L` with a call log: every method behaves as in `L` and
appends the call it received to the log. -/
def traced {W : Type} (L : Library W) : Library (W × List Call) where
  Client_CreateTopic c ctx id s :=
    let r := L.Client_CreateTopic c ctx id s.1
    (r.1, (r.2, s.2 ++ [Call.Client_CreateTopic c ctx id]))
  Client_Topic c id s :=
    let r := L.Client_Topic c id s.1
    (r.1, (r.2, s.2 ++ [Call.Client_Topic c id]))
  Client_CreateSubscription c ctx id cfg s :=
    let r := L.Client_CreateSubscription c ctx id cfg s.1
    (r.1, (r.2, s.2 ++ [Call.Client_CreateSubscription c ctx id cfg]))
  Client_Subscription c id s :=
    let r := L.Client_Subscription c id s.1
    (r.1, (r.2, s.2 ++ [Call.Client_Subscription c id]))
  Client_Topics c ctx s :=
    let r := L.Client_Topics c ctx s.1
    (r.1, (r.2, s.2 ++ [Call.Client_Topics c ctx]))
  Client_Subscriptions c ctx s :=
    let r := L.Client_Subscriptions c ctx s.1
    (r.1, (r.2, s.2 ++ [Call.Client_Subscriptions c ctx]))
  TopicIterator_Next it s :=
    let r := L.TopicIterator_Next it s.1
    (r.1, (r.2, s.2 ++ [Call.TopicIterator_Next it]))
  SubscriptionIterator_Next it s :=
    let r := L.SubscriptionIterator_Next it s.1
    (r.1, (r.2, s.2 ++ [Call.SubscriptionIterator_Next it]))
  Topic_String t s :=
    let r := L.Topic_String t s.1
    (r.1, (r.2, s.2 ++ [Call.Topic_String t]))
  Topic_Publish t ctx msg s :=
    let r := L.Topic_Publish t ctx msg s.1
    (r.1, (r.2, s.2 ++ [Call.Topic_Publish t ctx msg]))
  Topic_Delete t ctx s :=
    let r := L.Topic_Delete t ctx s.1
    (r.1, (r.2, s.2 ++ [Call.Topic_Delete t ctx]))
  Subscription_String sub s :=
    let r := L.Subscription_String sub s.1
    (r.1, (r.2, s.2 ++ [Call.Subscription_String sub]))
  Subscription_Exists sub ctx s :=
    let r := L.Subscription_Exists sub ctx s.1
    (r.1, (r.2, s.2 ++ [Call.Subscription_Exists sub ctx]))
  Subscription_Receive sub ctx s :=
    let r := L.Subscription_Receive sub ctx s.1
    (r.1, (r.2, s.2 ++ [Call.Subscription_Receive sub ctx]))
  Subscription_Delete sub ctx s :=
    let r := L.Subscription_Delete sub ctx s.1
    (r.1, (r.2, s.2 ++ [Call.Subscription_Delete sub ctx]))
  PublishResult_Get p ctx s :=
    let r := L.PublishResult_Get p ctx s.1
    (r.1, (r.2, s.2 ++ [Call.PublishResult_Get p ctx]))

end pubsub

/-! ## The adapter types (`adapters.go`, lines 36-42) -/

/-- Adapter struct `client struct{ *pubsub.Client }`. -/
structure client where
  Client : pubsub.ClientPtr
  deriving DecidableEq

/-- Adapter struct `topic struct{ *pubsub.Topic }`. -/
structure topic where
  Topic : pubsub.TopicPtr
  deriving DecidableEq

/-- Adapter struct `subscription struct{ *pubsub.Subscription }`. -/
structure subscription where
  Subscription : pubsub.SubscriptionPtr
  deriving DecidableEq

/-- Adapter struct `message struct{ *pubsub.Message }`. -/
structure message where
  Message : pubsub.MessagePtr
  deriving DecidableEq

/-- Adapter struct `publishResult struct{ *pubsub.PublishResult }`. -/
structure publishResult where
  PublishResult : pubsub.PublishResultPtr
  deriving DecidableEq

/-- Modelled from the spec: the interface type `Client`, declared outside
`adapters.go`. A value is nil, holds an adapter of this package, or holds a
value of some other implementing type (named by `typeName`). -/
inductive Client where
  | nil
  | adapter (c : client)
  | other (typeName : String)
  deriving DecidableEq

/-- Modelled from the spec: the interface type `Topic`, declared outside
`adapters.go`. A value is nil, holds an adapter of this package, or holds a
value of some other implementing type (named by `typeName`). -/
inductive Topic where
  | nil
  | adapter (t : topic)
  | other (typeName : String)
  deriving DecidableEq

/-- Modelled from the spec: the interface type `Subscription`, declared outside
`adapters.go`. A value is nil, holds an adapter of this package, or holds a
value of some other implementing type (named by `typeName`). -/
inductive Subscription where
  | nil
  | adapter (s : subscription)
  | other (typeName : String)
  deriving DecidableEq

/-- Modelled from the spec: the interface type `Message`, declared outside
`adapters.go`. A value is nil, holds an adapter of this package, or holds a
value of some other implementing type (named by `typeName`). -/
inductive Message where
  | nil
  | adapter (m : message)
  | other (typeName : String)
  deriving DecidableEq

/-- Modelled from the spec: the interface type `PublishResult`, declared outside
`adapters.go`. A value is nil, holds an adapter of this package, or holds a
value of some other implementing type (named by `typeName`). -/
inductive PublishResult where
  | nil
  | adapter (r : publishResult)
  | other (typeName : String)
  deriving DecidableEq

/-- Modelled from the spec: the package's `SubscriptionConfig` value type,
declared outside `adapters.go`, with the fields that `toPS` reads (lines
148-153): the abstract topic and the settings copied as they are. -/
structure SubscriptionConfig where
  Topic : Topic
  PushConfig : pubsub.PushConfig
  AckDeadline : Int
  RetainAckedMessages : Bool
  RetentionDuration : Int
  Labels : List (String × String)
  deriving DecidableEq

/-! ## Constructors and methods -/

/-- Source: `AdaptClient` (lines 26-28). -/
def AdaptClient (c : pubsub.ClientPtr) : Client :=
  Client.adapter ⟨c⟩

/-- Source: `AdaptMessage` (lines 32-34). -/
def AdaptMessage (msg : pubsub.MessagePtr) : Message :=
  Message.adapter ⟨msg⟩

/-- Source: `SubscriptionConfig.toPS` (lines 146-155). The type assertion
`cfg.Topic.(topic)` panics unless the dynamic type of `cfg.Topic` is `topic`. -/
def SubscriptionConfig.toPS (cfg : SubscriptionConfig) : Except GoPanic pubsub.SubscriptionConfig :=
  match cfg.Topic with
  | Topic.adapter t =>
    Except.ok
      { Topic := t.Topic
        PushConfig := cfg.PushConfig
        AckDeadline := cfg.AckDeadline
        RetainAckedMessages := cfg.RetainAckedMessages
        RetentionDuration := cfg.RetentionDuration
        Labels := cfg.Labels }
  | _ => Except.error GoPanic.typeAssertion

/-- Source: `client.CreateTopic` (lines 50-56). -/
def client.CreateTopic {W : Type} (L : pubsub.Library W) (c : client) (ctx : Context)
    (topicID : String) (w : W) : (Topic × Option GoError) × W :=
  let r := L.Client_CreateTopic c.Client ctx topicID w
  match r.1.2 with
  | some err => ((Topic.nil, some err), r.2)
  | none => ((Topic.adapter ⟨r.1.1⟩, none), r.2)

/-- Source: `client.Topic` (lines 58-60). -/
def client.Topic {W : Type} (L : pubsub.Library W) (c : client) (id : String) (w : W) :
    pubsubwrapper.Topic × W :=
  let r := L.Client_Topic c.Client id w
  (Topic.adapter ⟨r.1⟩, r.2)

/-- Source: `client.CreateSubscription` (lines 62-68). The argument
`cfg.toPS()` is evaluated before the library is called; its panic leaves the
call unmade. -/
def client.CreateSubscription {W : Type} (L : pubsub.Library W) (c : client) (ctx : Context)
    (id : String) (cfg : SubscriptionConfig) (w : W) :
    Except GoPanic (pubsubwrapper.Subscription × Option GoError) × W :=
  match cfg.toPS with
  | Except.error p => (Except.error p, w)
  | Except.ok pscfg =>
    let r := L.Client_CreateSubscription c.Client ctx id pscfg w
    match r.1.2 with
    | some err => (Except.ok (Subscription.nil, some err), r.2)
    | none => (Except.ok (Subscription.adapter ⟨r.1.1⟩, none), r.2)

/-- Source: `client.Subscription` (lines 70-72). -/
def client.Subscription {W : Type} (L : pubsub.Library W) (c : client) (id : String) (w : W) :
    pubsubwrapper.Subscription × W :=
  let r := L.Client_Subscription c.Client id w
  (Subscription.adapter ⟨r.1⟩, r.2)

/-- The `for` loop of `client.Topics` (lines 76-82): advance the iterator;
return the accumulated slice when the error is nil, append `topic{top}`
otherwise. `none` when the fuel runs out. -/
def client.Topics.loop {W : Type} (L : pubsub.Library W) (topicIterator : pubsub.TopicIteratorPtr) :
    Nat → List pubsubwrapper.Topic → W → Option (List pubsubwrapper.Topic) × W
  | 0, _, w => (none, w)
  | fuel + 1, topics, w =>
    let r := L.TopicIterator_Next topicIterator w
    match r.1.2 with
    | none => (some topics, r.2)
    | some _ => client.Topics.loop L topicIterator fuel (topics ++ [Topic.adapter ⟨r.1.1⟩]) r.2

/-- Source: `client.Topics` (lines 74-83). -/
def client.Topics {W : Type} (L : pubsub.Library W) (c : client) (ctx : Context) (fuel : Nat)
    (w : W) : Option (List pubsubwrapper.Topic) × W :=
  let it := L.Client_Topics c.Client ctx w
  client.Topics.loop L it.1 fuel [] it.2

/-- The `for` loop of `client.Subscriptions` (lines 87-93). -/
def client.Subscriptions.loop {W : Type} (L : pubsub.Library W)
    (subscriptionIterator : pubsub.SubscriptionIteratorPtr) :
    Nat → List pubsubwrapper.Subscription → W → Option (List pubsubwrapper.Subscription) × W
  | 0, _, w => (none, w)
  | fuel + 1, subscriptions, w =>
    let r := L.SubscriptionIterator_Next subscriptionIterator w
    match r.1.2 with
    | none => (some subscriptions, r.2)
    | some _ =>
      client.Subscriptions.loop L subscriptionIterator fuel
        (subscriptions ++ [Subscription.adapter ⟨r.1.1⟩]) r.2

/-- Source: `client.Subscriptions` (lines 85-94). -/
def client.Subscriptions {W : Type} (L : pubsub.Library W) (c : client) (ctx : Context)
    (fuel : Nat) (w : W) : Option (List pubsubwrapper.Subscription) × W :=
  let it := L.Client_Subscriptions c.Client ctx w
  client.Subscriptions.loop L it.1 fuel [] it.2

/-- Source: `topic.String` (lines 96-98). -/
def topic.String {W : Type} (L : pubsub.Library W) (t : topic) (w : W) : String × W :=
  L.Topic_String t.Topic w

/-- Source: `topic.Publish` (lines 100-102). The type assertion
`msg.(message)` panics unless the dynamic type of `msg` is `message`. -/
def topic.Publish {W : Type} (L : pubsub.Library W) (t : topic) (ctx : Context)
    (msg : pubsubwrapper.Message) (w : W) : Except GoPanic PublishResult × W :=
  match msg with
  | Message.adapter m =>
    let r := L.Topic_Publish t.Topic ctx m.Message w
    (Except.ok (PublishResult.adapter ⟨r.1⟩), r.2)
  | _ => (Except.error GoPanic.typeAssertion, w)

/-- Source: `topic.Delete` (lines 104-106). -/
def topic.Delete {W : Type} (L : pubsub.Library W) (t : topic) (ctx : Context) (w : W) :
    Option GoError × W :=
  L.Topic_Delete t.Topic ctx w

/-- Source: `subscription.String` (lines 108-110). -/
def subscription.String {W : Type} (L : pubsub.Library W) (s : subscription) (w : W) :
    String × W :=
  L.Subscription_String s.Subscription w

/-- Source: `subscription.Exists` (lines 112-114). -/
def subscription.Exists {W : Type} (L : pubsub.Library W) (s : subscription) (ctx : Context)
    (w : W) : (Bool × Option GoError) × W :=
  L.Subscription_Exists s.Subscription ctx w

/-- Source: `subscription.Receive` (lines 116-120). The callback handed to the
library adapts the delivered message and calls the handler `f`. -/
def subscription.Receive {W : Type} (L : pubsub.Library W) (s : subscription) (ctx : Context)
    (f : Context → pubsubwrapper.Message → W → W) (w : W) : Option GoError × W :=
  pubsub.Subscription_Receive_run L s.Subscription ctx
    (fun ctx msg => f ctx (AdaptMessage msg)) w

/-- Source: `subscription.Delete` (lines 122-124). -/
def subscription.Delete {W : Type} (L : pubsub.Library W) (s : subscription) (ctx : Context)
    (w : W) : Option GoError × W :=
  L.Subscription_Delete s.Subscription ctx w

/-- Source: `message.ID` (lines 126-128): read field `ID` through the embedded
pointer; a nil pointer panics. The memory is returned as it was found. -/
def message.ID (m : message) (h : pubsub.Heap) : Except GoPanic String × pubsub.Heap :=
  match m.Message.addr with
  | none => (Except.error GoPanic.nilDereference, h)
  | some a => (Except.ok (h a).ID, h)

/-- Source: `message.Data` (lines 130-132). -/
def message.Data (m : message) (h : pubsub.Heap) :
    Except GoPanic (List (Fin 256)) × pubsub.Heap :=
  match m.Message.addr with
  | none => (Except.error GoPanic.nilDereference, h)
  | some a => (Except.ok (h a).Data, h)

/-- Source: `message.Attributes` (lines 134-136). -/
def message.Attributes (m : message) (h : pubsub.Heap) :
    Except GoPanic (List (String × String)) × pubsub.Heap :=
  match m.Message.addr with
  | none => (Except.error GoPanic.nilDereference, h)
  | some a => (Except.ok (h a).Attributes, h)

/-- Source: `message.PublishTime` (lines 138-140). -/
def message.PublishTime (m : message) (h : pubsub.Heap) : Except GoPanic Int × pubsub.Heap :=
  match m.Message.addr with
  | none => (Except.error GoPanic.nilDereference, h)
  | some a => (Except.ok (h a).PublishTime, h)

/-- Source: `publishResult.Get` (lines 142-144). -/
def publishResult.Get {W : Type} (L : pubsub.Library W) (r : publishResult) (ctx : Context)
    (w : W) : (String × Option GoError) × W :=
  L.PublishResult_Get r.PublishResult ctx w

/-! ## Vocabulary for the statements -/

/-- The library state after `i` advances of an iterator whose `Next` is `next`,
starting in state `w`. -/
def stateAfter {W α : Type} (next : W → (α × Option GoError) × W) (w : W) : Nat → W
  | 0 => w
  | i + 1 => (next (stateAfter next w i)).2

/-- What advance number `i` (counting from 0) returns: the value and the error. -/
def advance {W α : Type} (next : W → (α × Option GoError) × W) (w : W) (i : Nat) :
    α × Option GoError :=
  (next (stateAfter next w i)).1

/-- The values returned by advances `0 .. k-1`, in order. -/
def advancedValues {W α : Type} (next : W → (α × Option GoError) × W) (w : W) (k : Nat) :
    List α :=
  (List.range k).map (fun i => (advance next w i).1)

/-- The common shape of the two enumeration loops, over any `Next` and any
wrapping of the value; used to reason about both at once. -/
def drain {W α β : Type} (next : W → (α × Option GoError) × W) (wrap : α → β) :
    Nat → List β → W → Option (List β) × W
  | 0, _, w => (none, w)
  | fuel + 1, acc, w =>
    let r := next w
    match r.1.2 with
    | none => (some acc, r.2)
    | some _ => drain next wrap fuel (acc ++ [wrap r.1.1]) r.2

/-- A library whose iterators follow a script. The state is the number of
advances made so far; advance number `i` returns entry `i` of the script
(pointer address and error), and past the end of the script every advance
returns the nil pointer with the end-of-sequence error. The two create
methods fail under context 0 and succeed under any other context. The other
methods return fixed values. -/
def scriptedLibrary (script : List (Option Nat × Option GoError)) : pubsub.Library Nat where
  Client_CreateTopic _ ctx _ w :=
    if ctx = 0 then ((⟨none⟩, some (GoError.other "context canceled")), w)
    else ((⟨some ctx⟩, none), w)
  Client_Topic _ _ w := (⟨some 0⟩, w)
  Client_CreateSubscription _ ctx _ _ w :=
    if ctx = 0 then ((⟨none⟩, some (GoError.other "context canceled")), w)
    else ((⟨some ctx⟩, none), w)
  Client_Subscription _ _ w := (⟨some 0⟩, w)
  Client_Topics _ _ _ := (⟨some 0⟩, 0)
  Client_Subscriptions _ _ _ := (⟨some 0⟩, 0)
  TopicIterator_Next _ w :=
    match script.get? w with
    | some e => ((⟨e.1⟩, e.2), w + 1)
    | none => ((⟨none⟩, some GoError.Done), w + 1)
  SubscriptionIterator_Next _ w :=
    match script.get? w with
    | some e => ((⟨e.1⟩, e.2), w + 1)
    | none => ((⟨none⟩, some GoError.Done), w + 1)
  Topic_String _ w := ("topic", w)
  Topic_Publish _ _ _ w := (⟨some 0⟩, w)
  Topic_Delete _ _ w := (none, w)
  Subscription_String _ w := ("subscription", w)
  Subscription_Exists _ _ w := ((true, none), w)
  Subscription_Receive _ _ w := (([], none), w)
  Subscription_Delete _ _ w := (none, w)
  PublishResult_Get _ _ w := (("", none), w)

/-- The script of a well-formed iterator over the items at `addrs`: each is
returned with a nil error, then the end-of-sequence error follows. -/
def itemsScript (addrs : List Nat) : List (Option Nat × Option GoError) :=
  addrs.map (fun a => (some a, none))

/-- A script whose first advance reports a genuine error next to the pointer
at address 7 and whose second advance yields the item at address 8. -/
def transientScript : List (Option Nat × Option GoError) :=
  [(some 7, some (GoError.other "transient")), (some 8, none)]

/-- A handler that appends each invocation (context and message received) to a
list kept next to the library state. -/
def recordingHandler {W : Type} (ctx : Context) (msg : Message)
    (st : W × List (Context × Message)) : W × List (Context × Message) :=
  (st.1, st.2 ++ [(ctx, msg)])

/-- What advance number `i` of the iterator returned by `c.Client.Topics(ctx)`
returns, the library being in state `w` when `client.Topics` is entered. -/
def topicAdvance {W : Type} (L : pubsub.Library W) (c : client) (ctx : Context) (w : W)
    (i : Nat) : pubsub.TopicPtr × Option GoError :=
  advance (L.TopicIterator_Next (L.Client_Topics c.Client ctx w).1)
    (L.Client_Topics c.Client ctx w).2 i

/-- What advance number `i` of the iterator returned by
`c.Client.Subscriptions(ctx)` returns, the library being in state `w` when
`client.Subscriptions` is entered. -/
def subscriptionAdvance {W : Type} (L : pubsub.Library W) (c : client) (ctx : Context) (w : W)
    (i : Nat) : pubsub.SubscriptionPtr × Option GoError :=
  advance (L.SubscriptionIterator_Next (L.Client_Subscriptions c.Client ctx w).1)
    (L.Client_Subscriptions c.Client ctx w).2 i

/-! ## Lemmas on iteration -/

theorem stateAfter_shift {W α : Type} (next : W → (α × Option GoError) × W) (w : W) (i : Nat) :
    stateAfter next w (i + 1) = stateAfter next (next w).2 i := by
  induction i with
  | zero => rfl
  | succ n ih =>
    show (next (stateAfter next w (n + 1))).2 = (next (stateAfter next (next w).2 n)).2
    rw [ih]

theorem advance_shift {W α : Type} (next : W → (α × Option GoError) × W) (w : W) (i : Nat) :
    advance next w (i + 1) = advance next (next w).2 i := by
  unfold advance
  rw [stateAfter_shift]

theorem advancedValues_succ {W α : Type} (next : W → (α × Option GoError) × W) (w : W)
    (k : Nat) :
    advancedValues next w (k + 1) = (next w).1.1 :: advancedValues next (next w).2 k := by
  unfold advancedValues
  rw [List.range_succ_eq_map, List.map_cons, List.map_map]
  congr 1
  apply List.map_congr_left
  intro i _
  simp only [Function.comp_apply]
  rw [advance_shift]

theorem advancedValues_length {W α : Type} (next : W → (α × Option GoError) × W) (w : W)
    (k : Nat) : (advancedValues next w k).length = k := by
  simp [advancedValues]

theorem drain_run {W α β : Type} (next : W → (α × Option GoError) × W) (wrap : α → β) :
    ∀ (k fuel : Nat) (acc : List β) (w : W),
      (∀ i, i < k → (advance next w i).2 ≠ none) → (advance next w k).2 = none → k < fuel →
      drain next wrap fuel acc w
        = (some (acc ++ (advancedValues next w k).map wrap), stateAfter next w (k + 1)) := by
  intro k
  induction k with
  | zero =>
    intro fuel acc w _ hk hfuel
    obtain ⟨n, rfl⟩ : ∃ n, fuel = n + 1 := ⟨fuel - 1, by omega⟩
    have h0 : (next w).1.2 = none := hk
    simp [drain, h0, advancedValues, stateAfter]
  | succ k ih =>
    intro fuel acc w hlt hk hfuel
    obtain ⟨n, rfl⟩ : ∃ n, fuel = n + 1 := ⟨fuel - 1, by omega⟩
    have h0 : (next w).1.2 ≠ none := hlt 0 (Nat.succ_pos k)
    obtain ⟨e, he⟩ := Option.ne_none_iff_exists'.mp h0
    have hlt' : ∀ i, i < k → (advance next (next w).2 i).2 ≠ none := by
      intro i hi
      rw [← advance_shift]
      exact hlt (i + 1) (Nat.succ_lt_succ hi)
    have hk' : (advance next (next w).2 k).2 = none := by
      rw [← advance_shift]
      exact hk
    have step := ih n (acc ++ [wrap (next w).1.1]) (next w).2 hlt' hk' (by omega)
    rw [advancedValues_succ, stateAfter_shift next w (k + 1)]
    simp only [drain, he]
    rw [step]
    simp

theorem topics_loop_eq_drain {W : Type} (L : pubsub.Library W) (it : pubsub.TopicIteratorPtr) :
    ∀ (fuel : Nat) (acc : List Topic) (w : W),
      client.Topics.loop L it fuel acc w
        = drain (L.TopicIterator_Next it) (fun p => Topic.adapter ⟨p⟩) fuel acc w := by
  intro fuel
  induction fuel with
  | zero => intro acc w; rfl
  | succ n ih =>
    intro acc w
    simp only [client.Topics.loop, drain]
    cases (L.TopicIterator_Next it w).1.2 with
    | none => rfl
    | some e => exact ih _ _

theorem subscriptions_loop_eq_drain {W : Type} (L : pubsub.Library W)
    (it : pubsub.SubscriptionIteratorPtr) :
    ∀ (fuel : Nat) (acc : List Subscription) (w : W),
      client.Subscriptions.loop L it fuel acc w
        = drain (L.SubscriptionIterator_Next it) (fun p => Subscription.adapter ⟨p⟩) fuel acc w := by
  intro fuel
  induction fuel with
  | zero => intro acc w; rfl
  | succ n ih =>
    intro acc w
    simp only [client.Subscriptions.loop, drain]
    cases (L.SubscriptionIterator_Next it w).1.2 with
    | none => rfl
    | some e => exact ih _ _

theorem stateAfter_logged {W α C : Type} (next : W → (α × Option GoError) × W)
    (next' : W × List C → (α × Option GoError) × (W × List C)) (c : C)
    (h : ∀ s, next' s = ((next s.1).1, ((next s.1).2, s.2 ++ [c]))) (w : W) (log : List C)
    (i : Nat) :
    stateAfter next' (w, log) i = (stateAfter next w i, log ++ List.replicate i c) := by
  induction i with
  | zero => simp [stateAfter]
  | succ n ih =>
    show (next' (stateAfter next' (w, log) n)).2 = _
    rw [ih, h, List.replicate_succ']
    simp [stateAfter]

theorem advance_logged {W α C : Type} (next : W → (α × Option GoError) × W)
    (next' : W × List C → (α × Option GoError) × (W × List C)) (c : C)
    (h : ∀ s, next' s = ((next s.1).1, ((next s.1).2, s.2 ++ [c]))) (w : W) (log : List C)
    (i : Nat) :
    advance next' (w, log) i = advance next w i := by
  unfold advance
  rw [stateAfter_logged next next' c h, h]

theorem advancedValues_getElem? {W α β : Type} (next : W → (α × Option GoError) × W)
    (wrap : α → β) (w : W) (k i : Nat) (hi : i < k) :
    ((advancedValues next w k).map wrap)[i]? = some (wrap (advance next w i).1) := by
  simp [advancedValues, List.getElem?_range hi]

/-- The enumeration of topics on any library: when advance `k` is the first
with a nil error and the fuel exceeds `k`, the loop returns the wrapped values
of advances `0 .. k-1` and leaves the library as `k + 1` advances leave it. -/
theorem topics_run {W : Type} (L : pubsub.Library W) (c : client) (ctx : Context) (w : W)
    (k fuel : Nat) (hfuel : k < fuel)
    (herr : ∀ i, i < k →
      (advance (L.TopicIterator_Next (L.Client_Topics c.Client ctx w).1)
        (L.Client_Topics c.Client ctx w).2 i).2 ≠ none)
    (hnil : (advance (L.TopicIterator_Next (L.Client_Topics c.Client ctx w).1)
        (L.Client_Topics c.Client ctx w).2 k).2 = none) :
    client.Topics L c ctx fuel w
      = (some ((advancedValues (L.TopicIterator_Next (L.Client_Topics c.Client ctx w).1)
            (L.Client_Topics c.Client ctx w).2 k).map (fun p => Topic.adapter ⟨p⟩)),
         stateAfter (L.TopicIterator_Next (L.Client_Topics c.Client ctx w).1)
            (L.Client_Topics c.Client ctx w).2 (k + 1)) := by
  unfold client.Topics
  simp only []
  rw [topics_loop_eq_drain, drain_run _ _ k fuel [] _ herr hnil hfuel]
  simp

/-- The enumeration of subscriptions on any library, as `topics_run`. -/
theorem subscriptions_run {W : Type} (L : pubsub.Library W) (c : client) (ctx : Context)
    (w : W) (k fuel : Nat) (hfuel : k < fuel)
    (herr : ∀ i, i < k →
      (advance (L.SubscriptionIterator_Next (L.Client_Subscriptions c.Client ctx w).1)
        (L.Client_Subscriptions c.Client ctx w).2 i).2 ≠ none)
    (hnil : (advance (L.SubscriptionIterator_Next (L.Client_Subscriptions c.Client ctx w).1)
        (L.Client_Subscriptions c.Client ctx w).2 k).2 = none) :
    client.Subscriptions L c ctx fuel w
      = (some ((advancedValues
            (L.SubscriptionIterator_Next (L.Client_Subscriptions c.Client ctx w).1)
            (L.Client_Subscriptions c.Client ctx w).2 k).map
              (fun p => Subscription.adapter ⟨p⟩)),
         stateAfter (L.SubscriptionIterator_Next (L.Client_Subscriptions c.Client ctx w).1)
            (L.Client_Subscriptions c.Client ctx w).2 (k + 1)) := by
  unfold client.Subscriptions
  simp only []
  rw [subscriptions_loop_eq_drain, drain_run _ _ k fuel [] _ herr hnil hfuel]
  simp

/-- The call log of the enumeration of topics: one `Client.Topics` call, then
`k + 1` advances of the iterator it returned. -/
theorem topics_log {W : Type} (L : pubsub.Library W) (c : client) (ctx : Context) (w : W)
    (log : List pubsub.Call) (k fuel : Nat) (hfuel : k < fuel)
    (herr : ∀ i, i < k →
      (advance (L.TopicIterator_Next (L.Client_Topics c.Client ctx w).1)
        (L.Client_Topics c.Client ctx w).2 i).2 ≠ none)
    (hnil : (advance (L.TopicIterator_Next (L.Client_Topics c.Client ctx w).1)
        (L.Client_Topics c.Client ctx w).2 k).2 = none) :
    (client.Topics (pubsub.traced L) c ctx fuel (w, log)).2.2
      = log ++ pubsub.Call.Client_Topics c.Client ctx
          :: List.replicate (k + 1)
              (pubsub.Call.TopicIterator_Next (L.Client_Topics c.Client ctx w).1) := by
  have hstep : ∀ s : W × List pubsub.Call,
      (pubsub.traced L).TopicIterator_Next (L.Client_Topics c.Client ctx w).1 s
        = ((L.TopicIterator_Next (L.Client_Topics c.Client ctx w).1 s.1).1,
           ((L.TopicIterator_Next (L.Client_Topics c.Client ctx w).1 s.1).2,
            s.2 ++ [pubsub.Call.TopicIterator_Next (L.Client_Topics c.Client ctx w).1])) :=
    fun _ => rfl
  have hit : (pubsub.traced L).Client_Topics c.Client ctx (w, log)
      = ((L.Client_Topics c.Client ctx w).1,
         ((L.Client_Topics c.Client ctx w).2, log ++ [pubsub.Call.Client_Topics c.Client ctx])) :=
    rfl
  rw [topics_run (pubsub.traced L) c ctx (w, log) k fuel hfuel]
  · rw [hit]
    simp only []
    rw [stateAfter_logged _ _ _ hstep]
    simp
  · intro i hi
    rw [hit]
    simp only []
    rw [advance_logged _ _ _ hstep]
    exact herr i hi
  · rw [hit]
    simp only []
    rw [advance_logged _ _ _ hstep]
    exact hnil

/-- The call log of the enumeration of subscriptions, as `topics_log`. -/
theorem subscriptions_log {W : Type} (L : pubsub.Library W) (c : client) (ctx : Context)
    (w : W) (log : List pubsub.Call) (k fuel : Nat) (hfuel : k < fuel)
    (herr : ∀ i, i < k →
      (advance (L.SubscriptionIterator_Next (L.Client_Subscriptions c.Client ctx w).1)
        (L.Client_Subscriptions c.Client ctx w).2 i).2 ≠ none)
    (hnil : (advance (L.SubscriptionIterator_Next (L.Client_Subscriptions c.Client ctx w).1)
        (L.Client_Subscriptions c.Client ctx w).2 k).2 = none) :
    (client.Subscriptions (pubsub.traced L) c ctx fuel (w, log)).2.2
      = log ++ pubsub.Call.Client_Subscriptions c.Client ctx
          :: List.replicate (k + 1)
              (pubsub.Call.SubscriptionIterator_Next
                (L.Client_Subscriptions c.Client ctx w).1) := by
  have hstep : ∀ s : W × List pubsub.Call,
      (pubsub.traced L).SubscriptionIterator_Next (L.Client_Subscriptions c.Client ctx w).1 s
        = ((L.SubscriptionIterator_Next (L.Client_Subscriptions c.Client ctx w).1 s.1).1,
           ((L.SubscriptionIterator_Next (L.Client_Subscriptions c.Client ctx w).1 s.1).2,
            s.2 ++ [pubsub.Call.SubscriptionIterator_Next
                      (L.Client_Subscriptions c.Client ctx w).1])) :=
    fun _ => rfl
  have hit : (pubsub.traced L).Client_Subscriptions c.Client ctx (w, log)
      = ((L.Client_Subscriptions c.Client ctx w).1,
         ((L.Client_Subscriptions c.Client ctx w).2,
          log ++ [pubsub.Call.Client_Subscriptions c.Client ctx])) :=
    rfl
  rw [subscriptions_run (pubsub.traced L) c ctx (w, log) k fuel hfuel]
  · rw [hit]
    simp only []
    rw [stateAfter_logged _ _ _ hstep]
    simp
  · intro i hi
    rw [hit]
    simp only []
    rw [advance_logged _ _ _ hstep]
    exact herr i hi
  · rw [hit]
    simp only []
    rw [advance_logged _ _ _ hstep]
    exact hnil

theorem advancedValues_logged {W α C : Type} (next : W → (α × Option GoError) × W)
    (next' : W × List C → (α × Option GoError) × (W × List C)) (c : C)
    (h : ∀ s, next' s = ((next s.1).1, ((next s.1).2, s.2 ++ [c]))) (w : W) (log : List C)
    (k : Nat) :
    advancedValues next' (w, log) k = advancedValues next w k := by
  unfold advancedValues
  apply List.map_congr_left
  intro i _
  rw [advance_logged next next' c h]

/-- The enumeration of topics returns the same slice with and without the call log. -/
theorem topics_traced_result {W : Type} (L : pubsub.Library W) (c : client) (ctx : Context)
    (w : W) (log : List pubsub.Call) (k fuel : Nat) (hfuel : k < fuel)
    (herr : ∀ i, i < k → (topicAdvance L c ctx w i).2 ≠ none)
    (hnil : (topicAdvance L c ctx w k).2 = none) :
    (client.Topics (pubsub.traced L) c ctx fuel (w, log)).1
      = (client.Topics L c ctx fuel w).1 := by
  have hstep : ∀ s : W × List pubsub.Call,
      (pubsub.traced L).TopicIterator_Next (L.Client_Topics c.Client ctx w).1 s
        = ((L.TopicIterator_Next (L.Client_Topics c.Client ctx w).1 s.1).1,
           ((L.TopicIterator_Next (L.Client_Topics c.Client ctx w).1 s.1).2,
            s.2 ++ [pubsub.Call.TopicIterator_Next (L.Client_Topics c.Client ctx w).1])) :=
    fun _ => rfl
  have hit : (pubsub.traced L).Client_Topics c.Client ctx (w, log)
      = ((L.Client_Topics c.Client ctx w).1,
         ((L.Client_Topics c.Client ctx w).2, log ++ [pubsub.Call.Client_Topics c.Client ctx])) :=
    rfl
  rw [topics_run L c ctx w k fuel hfuel herr hnil,
    topics_run (pubsub.traced L) c ctx (w, log) k fuel hfuel]
  · rw [hit]
    simp only []
    rw [advancedValues_logged _ _ _ hstep]
  · intro i hi
    rw [hit]
    simp only []
    rw [advance_logged _ _ _ hstep]
    exact herr i hi
  · rw [hit]
    simp only []
    rw [advance_logged _ _ _ hstep]
    exact hnil

/-- The enumeration of subscriptions returns the same slice with and without
the call log. -/
theorem subscriptions_traced_result {W : Type} (L : pubsub.Library W) (c : client)
    (ctx : Context) (w : W) (log : List pubsub.Call) (k fuel : Nat) (hfuel : k < fuel)
    (herr : ∀ i, i < k → (subscriptionAdvance L c ctx w i).2 ≠ none)
    (hnil : (subscriptionAdvance L c ctx w k).2 = none) :
    (client.Subscriptions (pubsub.traced L) c ctx fuel (w, log)).1
      = (client.Subscriptions L c ctx fuel w).1 := by
  have hstep : ∀ s : W × List pubsub.Call,
      (pubsub.traced L).SubscriptionIterator_Next (L.Client_Subscriptions c.Client ctx w).1 s
        = ((L.SubscriptionIterator_Next (L.Client_Subscriptions c.Client ctx w).1 s.1).1,
           ((L.SubscriptionIterator_Next (L.Client_Subscriptions c.Client ctx w).1 s.1).2,
            s.2 ++ [pubsub.Call.SubscriptionIterator_Next
                      (L.Client_Subscriptions c.Client ctx w).1])) :=
    fun _ => rfl
  have hit : (pubsub.traced L).Client_Subscriptions c.Client ctx (w, log)
      = ((L.Client_Subscriptions c.Client ctx w).1,
         ((L.Client_Subscriptions c.Client ctx w).2,
          log ++ [pubsub.Call.Client_Subscriptions c.Client ctx])) :=
    rfl
  rw [subscriptions_run L c ctx w k fuel hfuel herr hnil,
    subscriptions_run (pubsub.traced L) c ctx (w, log) k fuel hfuel]
  · rw [hit]
    simp only []
    rw [advancedValues_logged _ _ _ hstep]
  · intro i hi
    rw [hit]
    simp only []
    rw [advance_logged _ _ _ hstep]
    exact herr i hi
  · rw [hit]
    simp only []
    rw [advance_logged _ _ _ hstep]
    exact hnil

/-! ## Enumeration: what the loops do -/

/-- C10. For every library and every iterator whose advance number `k`
(counting from 0) is the first to return a nil error, `client.Topics` (and
likewise `client.Subscriptions`) returns, given fuel for `k + 1` iterations, a
slice of exactly `k` adapters, the `i`-th wrapping the value that advance `i`
returned next to its error; the slice is empty when `k = 0`; and the library
receives one call creating the iterator followed by exactly `k + 1` advances. -/
theorem enumeration_stops_at_first_nil_error {W : Type} (L : pubsub.Library W) (c : client)
    (ctx : Context) (w : W) (log : List pubsub.Call) (k fuel : Nat) (hfuel : k < fuel) :
    ((∀ i, i < k → (topicAdvance L c ctx w i).2 ≠ none) →
      (topicAdvance L c ctx w k).2 = none →
      ∃ topics : List Topic,
        (client.Topics L c ctx fuel w).1 = some topics ∧
        topics.length = k ∧
        (∀ i, i < k → topics[i]? = some (Topic.adapter ⟨(topicAdvance L c ctx w i).1⟩)) ∧
        (k = 0 → topics = []) ∧
        (client.Topics (pubsub.traced L) c ctx fuel (w, log)).1 = some topics ∧
        (client.Topics (pubsub.traced L) c ctx fuel (w, log)).2.2
          = log ++ pubsub.Call.Client_Topics c.Client ctx
              :: List.replicate (k + 1)
                  (pubsub.Call.TopicIterator_Next (L.Client_Topics c.Client ctx w).1)) ∧
    ((∀ i, i < k → (subscriptionAdvance L c ctx w i).2 ≠ none) →
      (subscriptionAdvance L c ctx w k).2 = none →
      ∃ subscriptions : List Subscription,
        (client.Subscriptions L c ctx fuel w).1 = some subscriptions ∧
        subscriptions.length = k ∧
        (∀ i, i < k →
          subscriptions[i]? = some (Subscription.adapter ⟨(subscriptionAdvance L c ctx w i).1⟩)) ∧
        (k = 0 → subscriptions = []) ∧
        (client.Subscriptions (pubsub.traced L) c ctx fuel (w, log)).1 = some subscriptions ∧
        (client.Subscriptions (pubsub.traced L) c ctx fuel (w, log)).2.2
          = log ++ pubsub.Call.Client_Subscriptions c.Client ctx
              :: List.replicate (k + 1)
                  (pubsub.Call.SubscriptionIterator_Next
                    (L.Client_Subscriptions c.Client ctx w).1)) := by
  constructor
  · intro herr hnil
    refine ⟨_, congrArg Prod.fst (topics_run L c ctx w k fuel hfuel herr hnil), ?_, ?_, ?_, ?_, ?_⟩
    · simp [advancedValues_length]
    · intro i hi
      exact advancedValues_getElem? _ _ _ k i hi
    · intro hk
      subst hk
      rfl
    · rw [topics_traced_result L c ctx w log k fuel hfuel herr hnil]
      exact congrArg Prod.fst (topics_run L c ctx w k fuel hfuel herr hnil)
    · exact topics_log L c ctx w log k fuel hfuel herr hnil
  · intro herr hnil
    refine ⟨_, congrArg Prod.fst (subscriptions_run L c ctx w k fuel hfuel herr hnil),
      ?_, ?_, ?_, ?_, ?_⟩
    · simp [advancedValues_length]
    · intro i hi
      exact advancedValues_getElem? _ _ _ k i hi
    · intro hk
      subst hk
      rfl
    · rw [subscriptions_traced_result L c ctx w log k fuel hfuel herr hnil]
      exact congrArg Prod.fst (subscriptions_run L c ctx w k fuel hfuel herr hnil)
    · exact subscriptions_log L c ctx w log k fuel hfuel herr hnil

theorem enumeration_stops_at_first_nil_error_witness :
    (topicAdvance (scriptedLibrary transientScript) ⟨⟨some 1⟩⟩ 0 0 0).2 ≠ none ∧
    (topicAdvance (scriptedLibrary transientScript) ⟨⟨some 1⟩⟩ 0 0 1).2 = none ∧
    (client.Topics (scriptedLibrary transientScript) ⟨⟨some 1⟩⟩ 0 2 0).1
      = some [Topic.adapter ⟨⟨some 7⟩⟩] ∧
    (client.Topics (pubsub.traced (scriptedLibrary transientScript)) ⟨⟨some 1⟩⟩ 0 2 (0, [])).2.2
      = [pubsub.Call.Client_Topics ⟨some 1⟩ 0, pubsub.Call.TopicIterator_Next ⟨some 0⟩,
         pubsub.Call.TopicIterator_Next ⟨some 0⟩] ∧
    (subscriptionAdvance (scriptedLibrary transientScript) ⟨⟨some 1⟩⟩ 0 0 0).2 ≠ none ∧
    (subscriptionAdvance (scriptedLibrary transientScript) ⟨⟨some 1⟩⟩ 0 0 1).2 = none ∧
    (client.Subscriptions (scriptedLibrary transientScript) ⟨⟨some 1⟩⟩ 0 2 0).1
      = some [Subscription.adapter ⟨⟨some 7⟩⟩] := by
  have hT0 : ∀ i, i < 1 →
      (topicAdvance (scriptedLibrary transientScript) ⟨⟨some 1⟩⟩ 0 0 i).2 ≠ none := by decide
  have hT1 : (topicAdvance (scriptedLibrary transientScript) ⟨⟨some 1⟩⟩ 0 0 1).2 = none := by
    decide
  have hS0 : ∀ i, i < 1 →
      (subscriptionAdvance (scriptedLibrary transientScript) ⟨⟨some 1⟩⟩ 0 0 i).2 ≠ none := by
    decide
  have hS1 :
      (subscriptionAdvance (scriptedLibrary transientScript) ⟨⟨some 1⟩⟩ 0 0 1).2 = none := by
    decide
  obtain ⟨topics, hres, hlen, hget, -, -, hlog⟩ :=
    (enumeration_stops_at_first_nil_error (scriptedLibrary transientScript) ⟨⟨some 1⟩⟩ 0 0 []
      1 2 (by decide)).1 hT0 hT1
  obtain ⟨subs, hres', hlen', hget', -, -, -⟩ :=
    (enumeration_stops_at_first_nil_error (scriptedLibrary transientScript) ⟨⟨some 1⟩⟩ 0 0 []
      1 2 (by decide)).2 hS0 hS1
  have ht : topics = [Topic.adapter ⟨⟨some 7⟩⟩] := by
    have h0 := hget 0 (by decide)
    match topics, hlen, h0 with
    | [t], _, h0 => simpa using h0
  have hs : subs = [Subscription.adapter ⟨⟨some 7⟩⟩] := by
    have h0 := hget' 0 (by decide)
    match subs, hlen', h0 with
    | [t], _, h0 => simpa using h0
  refine ⟨hT0 0 (by decide), hT1, ?_, ?_, hS0 0 (by decide), hS1, ?_⟩
  · rw [hres, ht]
  · rw [hlog]
    rfl
  · rw [hres', hs]

/-- C1 (evaluation of the code at a well-formed iterator). The iterator of
`scriptedLibrary (itemsScript [1])` yields one item with a nil error, then
reports the end-of-sequence error; on it `client.Topics` and
`client.Subscriptions` return the empty slice, whatever the fuel, after a
single advance: the one item is not returned. -/
theorem enumeration_of_one_item_returns_nothing (c : client) (ctx : Context) (fuel : Nat) :
    topicAdvance (scriptedLibrary (itemsScript [1])) c ctx 0 0 = (⟨some 1⟩, none) ∧
    topicAdvance (scriptedLibrary (itemsScript [1])) c ctx 0 1 = (⟨none⟩, some GoError.Done) ∧
    client.Topics (scriptedLibrary (itemsScript [1])) c ctx (fuel + 1) 0 = (some [], 1) ∧
    subscriptionAdvance (scriptedLibrary (itemsScript [1])) c ctx 0 0 = (⟨some 1⟩, none) ∧
    subscriptionAdvance (scriptedLibrary (itemsScript [1])) c ctx 0 1
      = (⟨none⟩, some GoError.Done) ∧
    client.Subscriptions (scriptedLibrary (itemsScript [1])) c ctx (fuel + 1) 0 = (some [], 1) :=
  ⟨rfl, rfl, rfl, rfl, rfl, rfl⟩

theorem topics_loop_scripted_empty (it : pubsub.TopicIteratorPtr) :
    ∀ (fuel : Nat) (acc : List Topic) (w : Nat),
      client.Topics.loop (scriptedLibrary (itemsScript [])) it fuel acc w = (none, w + fuel) := by
  intro fuel
  induction fuel with
  | zero => intro acc w; rfl
  | succ n ih =>
    intro acc w
    have hstep : client.Topics.loop (scriptedLibrary (itemsScript [])) it (n + 1) acc w
        = client.Topics.loop (scriptedLibrary (itemsScript [])) it n
            (acc ++ [Topic.adapter ⟨⟨none⟩⟩]) (w + 1) := rfl
    rw [hstep, ih]
    simp [Nat.add_assoc, Nat.add_comm 1 n]

theorem subscriptions_loop_scripted_empty (it : pubsub.SubscriptionIteratorPtr) :
    ∀ (fuel : Nat) (acc : List Subscription) (w : Nat),
      client.Subscriptions.loop (scriptedLibrary (itemsScript [])) it fuel acc w
        = (none, w + fuel) := by
  intro fuel
  induction fuel with
  | zero => intro acc w; rfl
  | succ n ih =>
    intro acc w
    have hstep : client.Subscriptions.loop (scriptedLibrary (itemsScript [])) it (n + 1) acc w
        = client.Subscriptions.loop (scriptedLibrary (itemsScript [])) it n
            (acc ++ [Subscription.adapter ⟨⟨none⟩⟩]) (w + 1) := rfl
    rw [hstep, ih]
    simp [Nat.add_assoc, Nat.add_comm 1 n]

/-- C2 (evaluation of the code at a well-formed iterator). Every advance of the
iterator of `scriptedLibrary (itemsScript [])`, an iterator over nothing,
reports the end-of-sequence error; on it `client.Topics` and
`client.Subscriptions` return no slice for any amount of fuel: with fuel `n`
the loop makes `n` advances and is still running. -/
theorem enumeration_of_empty_iterator_never_returns (c : client) (ctx : Context) (n : Nat) :
    topicAdvance (scriptedLibrary (itemsScript [])) c ctx 0 n = (⟨none⟩, some GoError.Done) ∧
    client.Topics (scriptedLibrary (itemsScript [])) c ctx n 0 = (none, n) ∧
    subscriptionAdvance (scriptedLibrary (itemsScript [])) c ctx 0 n
      = (⟨none⟩, some GoError.Done) ∧
    client.Subscriptions (scriptedLibrary (itemsScript [])) c ctx n 0 = (none, n) := by
  refine ⟨?_, ?_, ?_, ?_⟩
  · unfold topicAdvance advance
    rfl
  · unfold client.Topics
    simp only []
    rw [topics_loop_scripted_empty]
    simp [scriptedLibrary]
  · unfold subscriptionAdvance advance
    rfl
  · unfold client.Subscriptions
    simp only []
    rw [subscriptions_loop_scripted_empty]
    simp [scriptedLibrary]

/-! ## Conversion of the subscription configuration -/

/-- C3. `SubscriptionConfig.toPS` panics on its type assertion exactly when the
`Topic` field does not hold a `topic` adapter (another implementation or nil),
and yields a value exactly when it does; then the result carries the concrete
topic the adapter wraps and the other fields unchanged. With a non-adapter
`Topic`, `client.CreateSubscription` panics with the library state and the call
log untouched (the library's create call is not made) and produces neither a
subscription nor an error value. -/
theorem toPS_fails_exactly_on_non_adapter_topic {W : Type} (L : pubsub.Library W) (c : client)
    (ctx : Context) (id : String) (cfg : SubscriptionConfig) (w : W) (log : List pubsub.Call) :
    (cfg.toPS = Except.error GoPanic.typeAssertion ↔ ∀ t, cfg.Topic ≠ Topic.adapter t) ∧
    ((∃ ps, cfg.toPS = Except.ok ps) ↔ ∃ t, cfg.Topic = Topic.adapter t) ∧
    (∀ t, cfg.Topic = Topic.adapter t →
      cfg.toPS = Except.ok
        { Topic := t.Topic
          PushConfig := cfg.PushConfig
          AckDeadline := cfg.AckDeadline
          RetainAckedMessages := cfg.RetainAckedMessages
          RetentionDuration := cfg.RetentionDuration
          Labels := cfg.Labels }) ∧
    ((∀ t, cfg.Topic ≠ Topic.adapter t) →
      client.CreateSubscription L c ctx id cfg w = (Except.error GoPanic.typeAssertion, w) ∧
      client.CreateSubscription (pubsub.traced L) c ctx id cfg (w, log)
        = (Except.error GoPanic.typeAssertion, (w, log))) := by
  cases hT : cfg.Topic with
  | nil => simp [SubscriptionConfig.toPS, client.CreateSubscription, hT]
  | other n => simp [SubscriptionConfig.toPS, client.CreateSubscription, hT]
  | adapter t => simp [SubscriptionConfig.toPS, client.CreateSubscription, hT]

theorem toPS_fails_exactly_on_non_adapter_topic_witness :
    (SubscriptionConfig.toPS ⟨Topic.adapter ⟨⟨some 3⟩⟩, ⟨"push"⟩, 10, false, 0, []⟩
      = Except.ok ⟨⟨some 3⟩, ⟨"push"⟩, 10, false, 0, []⟩) ∧
    (client.CreateSubscription (pubsub.traced (scriptedLibrary [])) ⟨⟨some 1⟩⟩ 1 "sub"
        ⟨Topic.other "fakeTopic", ⟨"push"⟩, 10, false, 0, []⟩ (0, [])
      = (Except.error GoPanic.typeAssertion, (0, []))) :=
  ⟨(toPS_fails_exactly_on_non_adapter_topic (scriptedLibrary []) ⟨⟨some 1⟩⟩ 1 "sub"
      ⟨Topic.adapter ⟨⟨some 3⟩⟩, ⟨"push"⟩, 10, false, 0, []⟩ 0 []).2.2.1 ⟨⟨some 3⟩⟩ rfl,
   ((toPS_fails_exactly_on_non_adapter_topic (scriptedLibrary []) ⟨⟨some 1⟩⟩ 1 "sub"
      ⟨Topic.other "fakeTopic", ⟨"push"⟩, 10, false, 0, []⟩ 0 []).2.2.2
        (fun _ h => Topic.noConfusion h)).2⟩

/-! ## Creation -/

/-- C4. `client.CreateTopic` returns the error the library's `CreateTopic`
returns, and leaves the library as that call leaves it; when that error is
non-nil the returned `Topic` is nil, and when it is nil the returned `Topic` is
the adapter of the concrete topic the call returned. The same holds for
`client.CreateSubscription` when the config's `Topic` is an adapter, the
library being called with the converted config. -/
theorem create_propagates_outcome {W : Type} (L : pubsub.Library W) (c : client) (ctx : Context)
    (id : String) (cfg : SubscriptionConfig) (w : W) :
    (client.CreateTopic L c ctx id w).1.2 = (L.Client_CreateTopic c.Client ctx id w).1.2 ∧
    (client.CreateTopic L c ctx id w).2 = (L.Client_CreateTopic c.Client ctx id w).2 ∧
    (∀ e, (L.Client_CreateTopic c.Client ctx id w).1.2 = some e →
      (client.CreateTopic L c ctx id w).1 = (Topic.nil, some e)) ∧
    ((L.Client_CreateTopic c.Client ctx id w).1.2 = none →
      (client.CreateTopic L c ctx id w).1
        = (Topic.adapter ⟨(L.Client_CreateTopic c.Client ctx id w).1.1⟩, none)) ∧
    (∀ t, cfg.Topic = Topic.adapter t →
      ∃ ps, cfg.toPS = Except.ok ps ∧ ps.Topic = t.Topic ∧
        (client.CreateSubscription L c ctx id cfg w).2
          = (L.Client_CreateSubscription c.Client ctx id ps w).2 ∧
        (∀ e, (L.Client_CreateSubscription c.Client ctx id ps w).1.2 = some e →
          (client.CreateSubscription L c ctx id cfg w).1
            = Except.ok (Subscription.nil, some e)) ∧
        ((L.Client_CreateSubscription c.Client ctx id ps w).1.2 = none →
          (client.CreateSubscription L c ctx id cfg w).1
            = Except.ok
                (Subscription.adapter ⟨(L.Client_CreateSubscription c.Client ctx id ps w).1.1⟩,
                 none))) := by
  refine ⟨?_, ?_, ?_, ?_, ?_⟩
  · unfold client.CreateTopic
    cases h : (L.Client_CreateTopic c.Client ctx id w).1.2 <;> simp [h]
  · unfold client.CreateTopic
    cases h : (L.Client_CreateTopic c.Client ctx id w).1.2 <;> simp [h]
  · intro e h
    simp [client.CreateTopic, h]
  · intro h
    simp [client.CreateTopic, h]
  · intro t ht
    refine ⟨⟨t.Topic, cfg.PushConfig, cfg.AckDeadline, cfg.RetainAckedMessages,
      cfg.RetentionDuration, cfg.Labels⟩, by simp only [SubscriptionConfig.toPS, ht], rfl,
      ?_, ?_, ?_⟩
    · simp only [client.CreateSubscription, SubscriptionConfig.toPS, ht]
      split <;> rfl
    · intro e h
      simp only [client.CreateSubscription, SubscriptionConfig.toPS, ht]
      simp [h]
    · intro h
      simp only [client.CreateSubscription, SubscriptionConfig.toPS, ht]
      simp [h]

theorem create_propagates_outcome_witness :
    (client.CreateTopic (scriptedLibrary []) ⟨⟨some 1⟩⟩ 0 "t" 0).1
      = (Topic.nil, some (GoError.other "context canceled")) ∧
    (client.CreateTopic (scriptedLibrary []) ⟨⟨some 1⟩⟩ 5 "t" 0).1
      = (Topic.adapter ⟨⟨some 5⟩⟩, none) ∧
    (client.CreateSubscription (scriptedLibrary []) ⟨⟨some 1⟩⟩ 0 "s"
        ⟨Topic.adapter ⟨⟨some 3⟩⟩, ⟨"push"⟩, 10, false, 0, []⟩ 0).1
      = Except.ok (Subscription.nil, some (GoError.other "context canceled")) ∧
    (client.CreateSubscription (scriptedLibrary []) ⟨⟨some 1⟩⟩ 5 "s"
        ⟨Topic.adapter ⟨⟨some 3⟩⟩, ⟨"push"⟩, 10, false, 0, []⟩ 0).1
      = Except.ok (Subscription.adapter ⟨⟨some 5⟩⟩, none) := by
  refine ⟨?_, ?_, ?_, ?_⟩
  · exact (create_propagates_outcome (scriptedLibrary []) ⟨⟨some 1⟩⟩ 0 "t"
      ⟨Topic.nil, ⟨"push"⟩, 10, false, 0, []⟩ 0).2.2.1 _ rfl
  · exact (create_propagates_outcome (scriptedLibrary []) ⟨⟨some 1⟩⟩ 5 "t"
      ⟨Topic.nil, ⟨"push"⟩, 10, false, 0, []⟩ 0).2.2.2.1 rfl
  · obtain ⟨ps, -, -, -, herr, -⟩ :=
      (create_propagates_outcome (scriptedLibrary []) ⟨⟨some 1⟩⟩ 0 "s"
        ⟨Topic.adapter ⟨⟨some 3⟩⟩, ⟨"push"⟩, 10, false, 0, []⟩ 0).2.2.2.2 ⟨⟨some 3⟩⟩ rfl
    exact herr _ rfl
  · obtain ⟨ps, -, -, -, -, hok⟩ :=
      (create_propagates_outcome (scriptedLibrary []) ⟨⟨some 1⟩⟩ 5 "s"
        ⟨Topic.adapter ⟨⟨some 3⟩⟩, ⟨"push"⟩, 10, false, 0, []⟩ 0).2.2.2.2 ⟨⟨some 3⟩⟩ rfl
    exact hok rfl

/-! ## Publishing -/

/-- C5. For every library, topic adapter `t`, context and message pointer `p`,
`t.Publish(ctx, AdaptMessage(p))` returns the adapter of the result that the
library's publish returns for `t`'s concrete topic, `ctx` and the very pointer
`p`, leaves the library as that one call leaves it, and adds exactly one entry
to the call log: that publish call. -/
theorem publish_forwards_message {W : Type} (L : pubsub.Library W) (t : topic) (ctx : Context)
    (p : pubsub.MessagePtr) (w : W) (log : List pubsub.Call) :
    (∃ m, AdaptMessage p = Message.adapter m ∧ m.Message = p) ∧
    topic.Publish L t ctx (AdaptMessage p) w
      = (Except.ok (PublishResult.adapter ⟨(L.Topic_Publish t.Topic ctx p w).1⟩),
         (L.Topic_Publish t.Topic ctx p w).2) ∧
    topic.Publish (pubsub.traced L) t ctx (AdaptMessage p) (w, log)
      = (Except.ok (PublishResult.adapter ⟨(L.Topic_Publish t.Topic ctx p w).1⟩),
         ((L.Topic_Publish t.Topic ctx p w).2, log ++ [pubsub.Call.Topic_Publish t.Topic ctx p])) :=
  ⟨⟨⟨p⟩, rfl, rfl⟩, rfl, rfl⟩

/-! ## Message accessors -/

/-- C6. For every message held in memory at address `a`, the adapter returned
by `AdaptMessage` on the pointer to it gives, through `ID`, `Data`,
`Attributes` and `PublishTime`, the fields of that message, and each accessor
leaves the memory (hence every field of every message) as it found it. -/
theorem message_accessors_read_fields (a : Nat) (h : pubsub.Heap) :
    ∃ m, AdaptMessage ⟨some a⟩ = Message.adapter m ∧
      message.ID m h = (Except.ok (h a).ID, h) ∧
      message.Data m h = (Except.ok (h a).Data, h) ∧
      message.Attributes m h = (Except.ok (h a).Attributes, h) ∧
      message.PublishTime m h = (Except.ok (h a).PublishTime, h) :=
  ⟨⟨⟨some a⟩⟩, rfl, rfl, rfl, rfl, rfl⟩

/-! ## Lookup by identifier -/

/-- C7. For every library, concrete client `C`, identifier and library state,
`AdaptClient(C).Topic(id)` is a topic adapter whose `String()` returns what
`C.Topic(id).String()` returns, and `AdaptClient(C).Subscription(id)` is a
subscription adapter whose `String()` returns what
`C.Subscription(id).String()` returns. -/
theorem lookup_string_matches {W : Type} (L : pubsub.Library W) (C : pubsub.ClientPtr)
    (id : String) (w : W) :
    ∃ c, AdaptClient C = Client.adapter c ∧
      (∃ t, client.Topic L c id w = (Topic.adapter t, (L.Client_Topic C id w).2) ∧
        topic.String L t (client.Topic L c id w).2
          = L.Topic_String (L.Client_Topic C id w).1 (L.Client_Topic C id w).2) ∧
      (∃ s, client.Subscription L c id w
              = (Subscription.adapter s, (L.Client_Subscription C id w).2) ∧
        subscription.String L s (client.Subscription L c id w).2
          = L.Subscription_String (L.Client_Subscription C id w).1
              (L.Client_Subscription C id w).2) :=
  ⟨⟨C⟩, rfl, ⟨⟨(L.Client_Topic C id w).1⟩, rfl, rfl⟩,
    ⟨⟨(L.Client_Subscription C id w).1⟩, rfl, rfl⟩⟩

/-! ## Plain delegations -/

/-- C8. `topic.Delete`, `subscription.Delete`, `subscription.Exists` and
`publishResult.Get` return exactly what the wrapped object's method of the
same name returns for the same context (error, and boolean or server
identifier), leave the library as that call leaves it, and make that one call
and no other. -/
theorem delegations_return_underlying_result {W : Type} (L : pubsub.Library W) (t : topic)
    (s : subscription) (r : publishResult) (ctx : Context) (w : W) (log : List pubsub.Call) :
    topic.Delete L t ctx w = L.Topic_Delete t.Topic ctx w ∧
    subscription.Delete L s ctx w = L.Subscription_Delete s.Subscription ctx w ∧
    subscription.Exists L s ctx w = L.Subscription_Exists s.Subscription ctx w ∧
    publishResult.Get L r ctx w = L.PublishResult_Get r.PublishResult ctx w ∧
    topic.Delete (pubsub.traced L) t ctx (w, log)
      = ((L.Topic_Delete t.Topic ctx w).1,
         ((L.Topic_Delete t.Topic ctx w).2, log ++ [pubsub.Call.Topic_Delete t.Topic ctx])) ∧
    subscription.Delete (pubsub.traced L) s ctx (w, log)
      = ((L.Subscription_Delete s.Subscription ctx w).1,
         ((L.Subscription_Delete s.Subscription ctx w).2,
          log ++ [pubsub.Call.Subscription_Delete s.Subscription ctx])) ∧
    subscription.Exists (pubsub.traced L) s ctx (w, log)
      = ((L.Subscription_Exists s.Subscription ctx w).1,
         ((L.Subscription_Exists s.Subscription ctx w).2,
          log ++ [pubsub.Call.Subscription_Exists s.Subscription ctx])) ∧
    publishResult.Get (pubsub.traced L) r ctx (w, log)
      = ((L.PublishResult_Get r.PublishResult ctx w).1,
         ((L.PublishResult_Get r.PublishResult ctx w).2,
          log ++ [pubsub.Call.PublishResult_Get r.PublishResult ctx])) :=
  ⟨rfl, rfl, rfl, rfl, rfl, rfl, rfl, rfl⟩

/-! ## Receiving -/

theorem foldl_recordingHandler {W : Type} (ds : List (Context × pubsub.MessagePtr)) :
    ∀ st : W × List (Context × Message),
      ds.foldl (fun acc d => recordingHandler d.1 (AdaptMessage d.2) acc) st
        = (st.1, st.2 ++ ds.map (fun d => (d.1, AdaptMessage d.2))) := by
  induction ds with
  | nil => intro st; simp
  | cons d ds ih =>
    intro st
    rw [List.foldl_cons, ih]
    simp [recordingHandler]

/-- C9. For every library, subscription adapter, context and handler `f`,
`subscription.Receive` returns the terminal error of the library's `Receive`
and its effect is that of calling `f`, in delivery order, once per delivered
message with the context the loop passed and `AdaptMessage` of the message
delivered; a handler that records its invocations records exactly the
delivered (context, adapted message) pairs, in order; and the adapter of a
delivered message gives the fields of that message. -/
theorem receive_adapts_each_delivery {W : Type} (L : pubsub.Library W)
    (L' : pubsub.Library (W × List (Context × Message))) (s : subscription) (ctx : Context)
    (f : Context → Message → W → W) (w : W) (st : W × List (Context × Message)) (a : Nat)
    (h : pubsub.Heap) :
    subscription.Receive L s ctx f w
      = ((L.Subscription_Receive s.Subscription ctx w).1.2,
         (L.Subscription_Receive s.Subscription ctx w).1.1.foldl
           (fun acc d => f d.1 (AdaptMessage d.2) acc)
           (L.Subscription_Receive s.Subscription ctx w).2) ∧
    (subscription.Receive L' s ctx recordingHandler st).1
      = (L'.Subscription_Receive s.Subscription ctx st).1.2 ∧
    (subscription.Receive L' s ctx recordingHandler st).2.2
      = (L'.Subscription_Receive s.Subscription ctx st).2.2
          ++ (L'.Subscription_Receive s.Subscription ctx st).1.1.map
              (fun d => (d.1, AdaptMessage d.2)) ∧
    (∃ m, AdaptMessage ⟨some a⟩ = Message.adapter m ∧
      message.ID m h = (Except.ok (h a).ID, h) ∧
      message.Data m h = (Except.ok (h a).Data, h) ∧
      message.Attributes m h = (Except.ok (h a).Attributes, h) ∧
      message.PublishTime m h = (Except.ok (h a).PublishTime, h)) := by
  refine ⟨rfl, rfl, ?_, ⟨⟨⟨some a⟩⟩, rfl, rfl, rfl, rfl, rfl⟩⟩
  unfold subscription.Receive pubsub.Subscription_Receive_run
  simp only []
  rw [foldl_recordingHandler]

end pubsubwrapper
